import Mathlib

/-!
Verification development for the SS-SEND image mailer (src/app.py).

The Python program is embedded shallowly:

* pure helpers (`_cloudinary_signature`, `get_env_any`, filename
  sanitization) become Lean functions on `String` / `List`;
* `hashlib.sha1(...).hexdigest()` is modelled by an executable SHA-1
  implementation over byte lists (`Nat` values below 256);
* HTTP and the filesystem are modelled by explicit oracles: an
  environment lookup `String -> Option String`, per-path upload response
  worlds, and a Mailgun post function returning a status code and body;
  disk writes are recorded as an explicit list of write operations;
* the Streamlit `main` handler (the code path that runs after the send
  button is clicked) becomes a function from a submission record and a
  world of oracles to an `Outcome` recording the terminal state, the
  disk writes, the upload attempts, the collected URLs, the single
  Mailgun request (if one was made) and the user-facing warnings.
-/

/-! ### SHA-1 over byte lists (model of `hashlib.sha1(...).hexdigest()`) -/

/-- Truncate a natural number to 32 bits. -/
def w32 (n : Nat) : Nat := n % 4294967296

/-- Rotate a 32-bit word left by `k` bits. -/
def rotl (k x : Nat) : Nat := w32 ((x <<< k) % 4294967296 ||| x >>> (32 - k))

/-- One SHA-1 compression round: round index `i`, schedule word `wd`,
state `(a, b, c, d, e)`. -/
def sha1Step (i wd : Nat) (st : Nat × Nat × Nat × Nat × Nat) :
    Nat × Nat × Nat × Nat × Nat :=
  let (a, b, c, d, e) := st
  let f :=
    if i < 20 then (b &&& c) ||| ((b ^^^ 4294967295) &&& d)
    else if i < 40 then b ^^^ c ^^^ d
    else if i < 60 then (b &&& c) ||| (b &&& d) ||| (c &&& d)
    else b ^^^ c ^^^ d
  let k :=
    if i < 20 then 0x5A827999
    else if i < 40 then 0x6ED9EBA1
    else if i < 60 then 0x8F1BBCDC
    else 0xCA62C1D6
  (w32 (rotl 5 a + f + e + k + wd), a, rotl 30 b, c, d)

/-- Extend a 16-word block to the 80-word SHA-1 message schedule
(`n` more words to push). -/
def sha1Extend : Nat → Array Nat → Array Nat
  | 0, a => a
  | n + 1, a =>
    let m := a.size
    sha1Extend n
      (a.push (rotl 1 ((a.getD (m - 3) 0) ^^^ (a.getD (m - 8) 0) ^^^
        (a.getD (m - 14) 0) ^^^ (a.getD (m - 16) 0))))

/-- Process one 16-word block, updating the five-word SHA-1 state. -/
def sha1Block (h : Nat × Nat × Nat × Nat × Nat) (ws16 : List Nat) :
    Nat × Nat × Nat × Nat × Nat :=
  let sched := sha1Extend 64 ws16.toArray
  let (a, b, c, d, e) :=
    sched.toList.enum.foldl (fun st iw => sha1Step iw.1 iw.2 st) h
  let (h0, h1, h2, h3, h4) := h
  (w32 (h0 + a), w32 (h1 + b), w32 (h2 + c), w32 (h3 + d), w32 (h4 + e))

/-- Process the padded word stream 16 words at a time (`fuel` bounds the
recursion; it is instantiated with the length of the stream). -/
def sha1Blocks : Nat → Nat × Nat × Nat × Nat × Nat → List Nat →
    Nat × Nat × Nat × Nat × Nat
  | 0, h, _ => h
  | _ + 1, h, [] => h
  | n + 1, h, ws => sha1Blocks n (sha1Block h (ws.take 16)) (ws.drop 16)

/-- Group bytes into big-endian 32-bit words. -/
def bytesToWords : List Nat → List Nat
  | b0 :: b1 :: b2 :: b3 :: rest =>
    (b0 <<< 24 ||| b1 <<< 16 ||| b2 <<< 8 ||| b3) :: bytesToWords rest
  | _ => []

/-- SHA-1 padding: append `0x80`, zeros up to 56 mod 64, then the
64-bit big-endian bit length. -/
def sha1Pad (msg : List Nat) : List Nat :=
  let L := msg.length
  let zeros := (119 - L % 64) % 64
  msg ++ 0x80 :: List.replicate zeros 0 ++
    (List.range 8).map (fun i => ((8 * L) >>> (8 * (7 - i))) % 256)

/-- The five 32-bit state words of the SHA-1 digest of a byte list. -/
def sha1Words (msg : List Nat) : Nat × Nat × Nat × Nat × Nat :=
  let stream := bytesToWords (sha1Pad msg)
  sha1Blocks stream.length
    (0x67452301, 0xEFCDAB89, 0x98BADCFE, 0x10325476, 0xC3D2E1F0) stream

/-- Lowercase hexadecimal digit. -/
def hexDigit (n : Nat) : Char :=
  if n < 10 then Char.ofNat (48 + n) else Char.ofNat (87 + n)

/-- Lowercase 8-digit hexadecimal rendering of a 32-bit word. -/
def wordToHex (wd : Nat) : String :=
  String.mk ((List.range 8).map (fun i => hexDigit ((wd >>> (4 * (7 - i))) % 16)))

/-- Lowercase hex SHA-1 digest of a byte list; model of
`hashlib.sha1(bytes).hexdigest()`. -/
def sha1Hex (msg : List Nat) : String :=
  let (h0, h1, h2, h3, h4) := sha1Words msg
  wordToHex h0 ++ wordToHex h1 ++ wordToHex h2 ++ wordToHex h3 ++ wordToHex h4

/-- UTF-8 encoding of a single character, as a list of byte values. -/
def utf8Char (c : Char) : List Nat :=
  let n := c.toNat
  if n < 128 then [n]
  else if n < 2048 then [192 ||| (n >>> 6), 128 ||| (n &&& 63)]
  else if n < 65536 then
    [224 ||| (n >>> 12), 128 ||| ((n >>> 6) &&& 63), 128 ||| (n &&& 63)]
  else
    [240 ||| (n >>> 18), 128 ||| ((n >>> 12) &&& 63),
     128 ||| ((n >>> 6) &&& 63), 128 ||| (n &&& 63)]

/-- UTF-8 encoding of a string; model of `str.encode("utf-8")`. -/
def utf8Bytes (s : String) : List Nat := s.data.flatMap utf8Char

set_option maxRecDepth 20000 in
example : sha1Hex (utf8Bytes "abc") = "a9993e364706816aba3e25717850c26c9cd0d89d" := by
  decide

/-! ### Signature Generator (`_cloudinary_signature`, src/app.py lines 64-72)

A Python `dict` parameter mapping is embedded as an association list
`List (String × Option String)`; `None` values become `none`.  A `dict`
has pairwise distinct keys, which theorems state as `Nodup` of the key
list. -/

/-- Model of the dict comprehension
`{k: v for k, v in params.items() if v not in (None, "")}`:
entries whose value is `None` or the empty string are discarded, and the
surviving values are unwrapped to plain strings. -/
def pyFilterParams (params : List (String × Option String)) :
    List (String × String) :=
  params.filterMap (fun kv =>
    match kv.2 with
    | none => none
    | some v => if v = "" then none else some (kv.1, v))

/-- The `key=value` fragments of the Cloudinary signature base string, in
sorted key order, exactly as built by
`"&".join(f"{k}={filtered[k]}" for k in sorted(filtered.keys()))`.
Python sorts strings by code points, which is the `String` linear order. -/
def signatureParts (params : List (String × Option String)) : List String :=
  let filtered := pyFilterParams params
  (List.insertionSort (· ≤ ·) (filtered.map Prod.fst)).map
    (fun k => k ++ "=" ++ ((filtered.lookup k).getD ""))

/-- Model of `_cloudinary_signature`: join the sorted `key=value`
fragments with `&`, append the API secret with no separator, and return
the lowercase hex SHA-1 digest of the UTF-8 encoding. -/
def cloudinarySignature (params : List (String × Option String))
    (api_secret : String) : String :=
  sha1Hex (utf8Bytes (String.intercalate "&" (signatureParts params) ++ api_secret))

/-- The signature base string as the specification describes it: drop the
entries whose value is empty or absent, sort the remaining entries by
key, join them as `key=value` pairs with `&`, and append the secret
directly. -/
def specSignatureBase (params : List (String × Option String))
    (secret : String) : String :=
  let kept := params.filter (fun kv => !(kv.2 == none) && !(kv.2 == some ""))
  let sortedPairs :=
    List.insertionSort (fun a b : String × Option String => a.1 ≤ b.1) kept
  String.intercalate "&"
    (sortedPairs.map (fun kv => kv.1 ++ "=" ++ kv.2.getD "")) ++ secret

/-! ### Filename sanitization (`save_uploaded_files`, src/app.py lines 32-49) -/

/-- Model of `os.path.basename` on POSIX: the suffix after the last
path separator (the empty string if the name ends in a separator). -/
def pyBasename (s : String) : String :=
  String.mk (s.data.foldl (fun acc c => if c = '/' then [] else acc ++ [c]) [])

/-- Model of `str.replace("..", "_")`: scan left to right, replacing each
non-overlapping occurrence of two consecutive dots with one underscore. -/
def replaceDotDot : List Char → List Char
  | [] => []
  | [c] => [c]
  | c1 :: c2 :: rest =>
    if c1 = '.' && c2 = '.' then '_' :: replaceDotDot rest
    else c1 :: replaceDotDot (c2 :: rest)

/-- `safe_name = os.path.basename(uploaded.name).replace("..", "_")`. -/
def sanitizeName (name : String) : String :=
  String.mk (replaceDotDot (pyBasename name).data)

/-- Whether a character list contains two consecutive dots, i.e. whether
the string contains `".."` as a substring. -/
def hasDoubleDot : List Char → Bool
  | [] => false
  | [_] => false
  | c1 :: c2 :: rest => (c1 = '.' && c2 = '.') || hasDoubleDot (c2 :: rest)

/-! ### Config Resolver (`get_env_any`, src/app.py lines 54-59) -/

/-- Python whitespace characters stripped by `str.strip()`. -/
def isPySpace (c : Char) : Bool :=
  c = ' ' || c = '\t' || c = '\n' || c = '\r' || c = '\x0b' || c = '\x0c'

/-- Model of `str.strip()`: drop whitespace from both ends. -/
def pyStrip (s : String) : String :=
  String.mk (((s.data.dropWhile isPySpace).reverse.dropWhile isPySpace).reverse)

/-- Model of `get_env_any`: return the stripped value of the first key
whose environment value is present and non-blank after stripping,
otherwise the default.  The environment is an explicit lookup function. -/
def get_env_any (env : String → Option String) :
    List String → String → String
  | [], default => default
  | key :: rest, default =>
    match env key with
    | some v => if pyStrip v ≠ "" then pyStrip v else get_env_any env rest default
    | none => get_env_any env rest default

/-- The first candidate key whose value qualifies (present and non-blank
after stripping), with its raw environment value; written from the
specification of the Config Resolver. -/
def firstQualified (env : String → Option String) (keys : List String) :
    Option String :=
  (keys.find? (fun k =>
    match env k with
    | some v => pyStrip v != ""
    | none => false)).bind env

example : sanitizeName "..secret..txt" = "_secret_txt" := by decide
example : sanitizeName "a/b/../c.png" = "c.png" := by decide
example : pyStrip "  x y\t" = "x y" := by decide

/-! ### Data model for the orchestrator -/

/-- A file the user selected in the form: name and raw bytes. -/
structure UploadedFile where
  name : String
  bytes : List Nat
deriving DecidableEq, Repr

/-- One disk write performed by the Backup Writer: the directory, the
file name inside it, and the bytes written. -/
structure WriteOp where
  dir : String
  name : String
  bytes : List Nat
deriving DecidableEq, Repr

/-- Model of `save_uploaded_files`: the timestamped subdirectory
`base/ts` plus one write per uploaded file, in input order, under the
sanitized name.  The timestamp string is supplied by the world. -/
def save_uploaded_files (files : List UploadedFile)
    (base_backup_dir ts : String) : String × List WriteOp :=
  let backup_dir := base_backup_dir ++ "/" ++ ts
  (backup_dir, files.map (fun f => ⟨backup_dir, sanitizeName f.name, f.bytes⟩))

/-- Read a path (directory, name) back from the recorded writes; the
last write to the path wins, as on a real filesystem. -/
def readFile (writes : List WriteOp) (p : String × String) :
    Option (List Nat) :=
  (writes.reverse.find? (fun wr => wr.dir == p.1 && wr.name == p.2)).map
    (fun wr => wr.bytes)

/-- The outcome of one HTTP attempt: the library call raised, or a
response was obtained. -/
inductive HttpAttempt (α : Type) where
  | exn : HttpAttempt α
  | ok : α → HttpAttempt α
deriving DecidableEq, Repr

/-- A Cloudinary upload response: the status code, and the result of
parsing the JSON body (`exn` models a body `resp.json()` raises on;
otherwise the value of the `secure_url` field, absent or present). -/
structure CloudResp where
  status_code : Nat
  json_secure_url : HttpAttempt (Option String)
deriving DecidableEq, Repr

/-- An imgbb upload response: status code, `success` flag, and the
`data.url` field. -/
structure ImgbbResp where
  status_code : Nat
  success : Bool
  data_url : Option String
deriving DecidableEq, Repr

/-- A Mailgun response: status code and body text. -/
structure MailgunResp where
  status_code : Nat
  text : String
deriving DecidableEq, Repr

/-- The Mailgun request assembled by `send_via_mailgun`: endpoint URL,
basic-auth pair, the four form fields, and one `(filename, bytes)` part
per attachment. -/
structure MailgunRequest where
  url : String
  auth : String × String
  fromAddr : String
  toAddr : String
  subject : String
  text : String
  attachments : List (String × List Nat)
deriving DecidableEq, Repr

/-! ### Image Host Client (src/app.py lines 75-112) -/

/-- Model of `upload_to_cloudinary`: build the signed request parameters
exactly as the source does (timestamp, optional folder, signature via
`_cloudinary_signature`), then interpret the response world: an
exception anywhere, a non-200 status, or a malformed JSON body all
yield `none`; on 200 the `secure_url` field is returned as is. -/
def upload_to_cloudinary (world : HttpAttempt CloudResp) (timestamp : Nat)
    (cloud_name api_key api_secret : String) (folder : Option String) :
    Option String :=
  let params : List (String × Option String) :=
    ("timestamp", some (toString timestamp)) ::
      (match folder with
       | some f => if f = "" then [] else [("folder", some f)]
       | none => [])
  let _signature := cloudinarySignature params api_secret
  let _url := "https://api.cloudinary.com/v1_1/" ++ cloud_name ++ "/image/upload"
  let _api_key := api_key
  match world with
  | .exn => none
  | .ok resp =>
    if resp.status_code = 200 then
      match resp.json_secure_url with
      | .exn => none
      | .ok u => u
    else none

/-- Model of `upload_to_imgbb`: `none` on exception, non-200 status or a
falsy `success` flag, otherwise the `data.url` field. -/
def upload_to_imgbb (world : HttpAttempt ImgbbResp) (api_key : String) :
    Option String :=
  let _api_key := api_key
  match world with
  | .exn => none
  | .ok resp =>
    if resp.status_code = 200 && resp.success then resp.data_url else none

/-! ### Mail Client (`send_via_mailgun`, src/app.py lines 117-148) -/

/-- The request `send_via_mailgun` posts, assembled from its arguments. -/
def mailgunRequest (api_key domain sender recipient subject text : String)
    (attachments : List (String × List Nat)) : MailgunRequest :=
  { url := "https://api.mailgun.net/v3/" ++ domain ++ "/messages"
    auth := ("api", api_key)
    fromAddr := sender
    toAddr := recipient
    subject := subject
    text := text
    attachments := attachments }

/-- Model of `send_via_mailgun`: post the assembled request through the
`post` oracle; any response with status at least 400 raises
`RuntimeError(f"Mailgun error {status}: {body}")`, modelled as an
`Except.error` carrying that message; otherwise the call returns. -/
def send_via_mailgun (post : MailgunRequest → MailgunResp)
    (api_key domain sender recipient subject text : String)
    (attachments : List (String × List Nat)) : Except String Unit :=
  let resp := post (mailgunRequest api_key domain sender recipient subject text attachments)
  if 400 ≤ resp.status_code then
    Except.error ("Mailgun error " ++ toString resp.status_code ++ ": " ++ resp.text)
  else Except.ok ()

/-! ### Workflow Orchestrator (`main`, src/app.py lines 151-291)

Only the code path that runs once the send button has been clicked is
embedded; the surrounding widget rendering has no effect on it beyond
supplying the form values collected in `Submission`. -/

/-- The environment values `main` resolves at the top, with the exact
alias lists from the source. -/
structure ResolvedCfg where
  mailgun_api_key : String
  mailgun_domain : String
  mailgun_sender : String
  cloudinary_cloud_name : String
  cloudinary_api_key : String
  cloudinary_api_secret : String
  cloudinary_folder : String
  imgbb_api_key : String
deriving DecidableEq, Repr

/-- `main`: resolve every configuration value through `get_env_any`. -/
def resolveCfg (env : String → Option String) : ResolvedCfg :=
  { mailgun_api_key := get_env_any env ["MAILGUN_API_KEY"] ""
    mailgun_domain := get_env_any env ["MAILGUN_DOMAIN"] ""
    mailgun_sender :=
      get_env_any env ["MAILGUN_SENDER", "MAILGUN_FROM", "MAILGUN_SENDER_EMAIL"] ""
    cloudinary_cloud_name :=
      get_env_any env ["CLOUDINARY_CLOUD_NAME", "CLOUD_NAME", "CLOUDINARY_CLOUD"] ""
    cloudinary_api_key :=
      get_env_any env ["CLOUDINARY_API_KEY", "CLOUD_API_KEY", "API_KEY"] ""
    cloudinary_api_secret :=
      get_env_any env ["CLOUDINARY_API_SECRET", "CLOUD_API_SECRET", "API_SECRET"] ""
    cloudinary_folder := get_env_any env ["CLOUDINARY_FOLDER", "CLOUD_FOLDER", "FOLDER"] ""
    imgbb_api_key := get_env_any env ["IMGBB_API_KEY", "IMG_BB_API_KEY"] "" }

/-- `mg_ready = all([MAILGUN_API_KEY, MAILGUN_DOMAIN, MAILGUN_SENDER])`. -/
def mg_ready (c : ResolvedCfg) : Bool :=
  c.mailgun_api_key != "" && c.mailgun_domain != "" && c.mailgun_sender != ""

/-- `cloudinary_ready = all([cloud name, api key, api secret])`. -/
def cloudinary_ready (c : ResolvedCfg) : Bool :=
  c.cloudinary_cloud_name != "" && c.cloudinary_api_key != "" &&
    c.cloudinary_api_secret != ""

/-- `imgbb_ready = bool(IMGBB_API_KEY)`. -/
def imgbb_ready (c : ResolvedCfg) : Bool := c.imgbb_api_key != ""

/-- The form values a submission carries when the send button is
clicked. -/
structure Submission where
  uploaded_files : List UploadedFile
  recipient_email : String
  from_display : String
  subject : String
  body : String
  backup_base : String
  enable_remote_hosting : Bool
  preferred_host : String
  cloudinary_folder_input : String
deriving DecidableEq, Repr

/-- The world of oracles a submission runs against: the process
environment, the backup timestamp `datetime.now().strftime(...)`
produces, the Unix time `time.time()` returns inside an upload, the
per-path upload response worlds, and the Mailgun post oracle. -/
structure World where
  env : String → Option String
  timestamp : String
  cloudTime : Nat
  cloudinary : String × String → HttpAttempt CloudResp
  imgbb : String × String → HttpAttempt ImgbbResp
  mailgun : MailgunRequest → MailgunResp

/-- Terminal state of a submission. -/
inductive TermState where
  | failed : String → TermState
  | succeeded : TermState
deriving DecidableEq, Repr

/-- Everything observable about one submission: terminal state, disk
writes, upload attempts (paths passed to an upload function), collected
URLs, the Mailgun request if one was posted, and the warnings shown. -/
structure Outcome where
  state : TermState
  writes : List WriteOp
  uploadAttempts : List (String × String)
  remote_urls : List String
  mailSent : Option MailgunRequest
  warnings : List String
deriving DecidableEq, Repr

/-- `folder=cloudinary_folder_input or None` at the call site. -/
def folderOf (s : Submission) : Option String :=
  if s.cloudinary_folder_input = "" then none else some s.cloudinary_folder_input

/-- The Cloudinary upload `main` performs for one saved path. -/
def cloudAttempt (w : World) (cfg : ResolvedCfg) (s : Submission)
    (p : String × String) : Option String :=
  upload_to_cloudinary (w.cloudinary p) w.cloudTime cfg.cloudinary_cloud_name
    cfg.cloudinary_api_key cfg.cloudinary_api_secret (folderOf s)

/-- The imgbb upload `main` performs for one saved path. -/
def imgbbAttempt (w : World) (cfg : ResolvedCfg) (p : String × String) :
    Option String :=
  upload_to_imgbb (w.imgbb p) cfg.imgbb_api_key

/-- The per-file upload loop of `main`: for each saved path, at most one
upload through the preferred ready provider; returns the list of paths
an upload was attempted for and the list of truthy URLs in input order
(`if url: remote_urls.append(url)`). -/
def uploadAll (w : World) (cfg : ResolvedCfg) (s : Submission) :
    List (String × String) → List (String × String) × List String
  | [] => ([], [])
  | p :: rest =>
    let step : Bool × Option String :=
      if s.preferred_host = "cloudinary" ∧ cloudinary_ready cfg = true then
        (true, cloudAttempt w cfg s p)
      else if s.preferred_host = "imgbb" ∧ imgbb_ready cfg = true then
        (true, imgbbAttempt w cfg p)
      else (false, none)
    let tail := uploadAll w cfg s rest
    ((if step.1 = true then [p] else []) ++ tail.1,
      match step.2 with
      | some u => if u = "" then tail.2 else u :: tail.2
      | none => tail.2)

/-- Validation message for an empty file list. -/
def msgNoFiles : String := "Please upload at least one image."

/-- Validation message for a missing recipient. -/
def msgNoRecipient : String := "Please provide the recipient email address."

/-- Validation message for unready Mailgun configuration. -/
def msgNoMailgun : String :=
  "Mailgun is not configured. Please set MAILGUN_API_KEY, MAILGUN_DOMAIN, MAILGUN_SENDER in your .env."

/-- Warning shown when remote hosting was enabled but no URL came back. -/
def hostingWarning : String :=
  "Remote hosting was enabled but no URLs were returned. Check your hosting configuration."

/-- An outcome that failed during validation: no disk or network
activity of any kind. -/
def validationFailure (msg : String) : Outcome :=
  { state := .failed msg, writes := [], uploadAttempts := [],
    remote_urls := [], mailSent := none, warnings := [] }

/-- The phase of `main` after validation has passed: back up the files,
optionally upload each, compose the body, and send through Mailgun. -/
def mainSendPhase (w : World) (s : Submission) : Outcome :=
  let cfg := resolveCfg w.env
  let res := save_uploaded_files s.uploaded_files s.backup_base w.timestamp
  let backup_folder := res.1
  let writes := res.2
  let saved_paths := writes.map (fun wr => (wr.dir, wr.name))
  let up :=
    if s.enable_remote_hosting = true ∧ saved_paths ≠ [] then
      uploadAll w cfg s saved_paths
    else ([], [])
  let remote_urls := up.2
  let url_block :=
    if remote_urls = [] then ""
    else "\n\nLinks:\n" ++ String.intercalate "\n" remote_urls
  let email_body := s.body ++ url_block ++ "\n\nTotal attachments: " ++
    toString saved_paths.length ++ "\nBackup folder: " ++ backup_folder
  let sender := if s.from_display = "" then cfg.mailgun_sender else s.from_display
  let attachments := saved_paths.map (fun p => (p.2, (readFile writes p).getD []))
  let req := mailgunRequest cfg.mailgun_api_key cfg.mailgun_domain sender
    s.recipient_email s.subject email_body attachments
  let sendResult := send_via_mailgun w.mailgun cfg.mailgun_api_key
    cfg.mailgun_domain sender s.recipient_email s.subject email_body attachments
  { state :=
      match sendResult with
      | .error e => .failed ("Failed to complete operation: " ++ e)
      | .ok _ => .succeeded
    writes := writes
    uploadAttempts := up.1
    remote_urls := remote_urls
    mailSent := some req
    warnings :=
      match sendResult with
      | .error _ => []
      | .ok _ =>
        if s.enable_remote_hosting = true ∧ remote_urls = [] then [hostingWarning]
        else [] }

/-- Model of the clicked branch of `main`: the three validation checks
in source order (`if not uploaded_files`, `if not recipient_email`,
`if not mg_ready` — Python string falsiness is emptiness), then the
send phase. -/
def mainClicked (w : World) (s : Submission) : Outcome :=
  if s.uploaded_files = [] then validationFailure msgNoFiles
  else if s.recipient_email = "" then validationFailure msgNoRecipient
  else if mg_ready (resolveCfg w.env) = false then validationFailure msgNoMailgun
  else mainSendPhase w s

/-! ### Claim C2: the Mail Client raises iff status is at least 400 -/

/-- C2: the send operation of the Mail Client raises an error if and
only if the HTTP response status code is at least 400; the raised
message contains both the status code and the response body; any status
below 400 returns successfully. -/
theorem send_via_mailgun_error_iff (post : MailgunRequest → MailgunResp)
    (api_key domain sender recipient subject text : String)
    (attachments : List (String × List Nat)) :
    ((∃ e, send_via_mailgun post api_key domain sender recipient subject text
        attachments = .error e) ↔
      400 ≤ (post (mailgunRequest api_key domain sender recipient subject text
        attachments)).status_code)
    ∧ (∀ e, send_via_mailgun post api_key domain sender recipient subject text
        attachments = .error e →
      ∃ s1 s2, e = s1 ++ toString (post (mailgunRequest api_key domain sender
        recipient subject text attachments)).status_code ++ s2 ++
        (post (mailgunRequest api_key domain sender recipient subject text
          attachments)).text)
    ∧ ((post (mailgunRequest api_key domain sender recipient subject text
        attachments)).status_code < 400 →
      send_via_mailgun post api_key domain sender recipient subject text
        attachments = .ok ()) := by
  unfold send_via_mailgun
  by_cases h : 400 ≤ (post (mailgunRequest api_key domain sender recipient
    subject text attachments)).status_code
  · refine ⟨⟨fun _ => h, fun _ => ⟨_, by rw [if_pos h]⟩⟩, ?_, ?_⟩
    · intro e he
      rw [if_pos h] at he
      exact ⟨"Mailgun error ", ": ", by cases he; rfl⟩
    · intro hlt
      exact absurd h (Nat.not_le.mpr hlt)
  · refine ⟨⟨fun ⟨e, he⟩ => ?_, fun hc => absurd hc h⟩, ?_, ?_⟩
    · rw [if_neg h] at he
      cases he
    · intro e he
      rw [if_neg h] at he
      cases he
    · intro _
      rw [if_neg h]

/-- A Mailgun post oracle that always rejects with status 500. -/
def postErr500 : MailgunRequest → MailgunResp :=
  fun _ => { status_code := 500, text := "internal error" }

/-- Witness for C2 at a concrete rejecting response. -/
theorem send_via_mailgun_error_iff_witness :
    400 ≤ (postErr500 (mailgunRequest "k" "d" "s@x" "r@x" "subj" "txt" [])).status_code
    ∧ ∃ e, send_via_mailgun postErr500 "k" "d" "s@x" "r@x" "subj" "txt" [] = .error e :=
  ⟨by decide,
    (send_via_mailgun_error_iff postErr500 "k" "d" "s@x" "r@x" "subj" "txt" []).1.mpr
      (by decide)⟩

/-! ### Claim C8: the Config Resolver -/

/-- Unfolding equation for `firstQualified` on a non-empty key list. -/
theorem firstQualified_cons (env : String → Option String) (k : String)
    (rest : List String) :
    firstQualified env (k :: rest) =
      match env k with
      | some v => if pyStrip v != "" then some v else firstQualified env rest
      | none => firstQualified env rest := by
  simp only [firstQualified, List.find?]
  cases henv : env k with
  | none => simp
  | some v =>
    by_cases hv : (pyStrip v != "") = true
    · simp [hv, henv]
    · have hb : (pyStrip v != "") = false := by simpa using hv
      simp [hb]

/-- C8: `get_env_any` returns the stripped value of the first candidate
whose environment value is present and non-blank after stripping, and
the default when no candidate qualifies; and its result depends only on
the environment values of the queried candidates, so re-invoking it
under the same environment state yields the same result. -/
theorem get_env_any_spec (env : String → Option String) (keys : List String)
    (default : String) :
    get_env_any env keys default = (firstQualified env keys).elim default pyStrip
    ∧ ∀ env2 : String → Option String, (∀ k ∈ keys, env2 k = env k) →
      get_env_any env2 keys default = get_env_any env keys default := by
  constructor
  · induction keys with
    | nil => rfl
    | cons k rest ih =>
      rw [firstQualified_cons]
      simp only [get_env_any]
      cases henv : env k with
      | none => exact ih
      | some v =>
        by_cases hv : pyStrip v = ""
        · have hb : (pyStrip v != "") = false := by simp [hv]
          simp [hb, hv, ih]
        · have hb : (pyStrip v != "") = true := by simp [hv]
          simp [hb, hv]
  · induction keys with
    | nil => intro env2 _; rfl
    | cons k rest ih =>
      intro env2 hagree
      have hk : env2 k = env k := hagree k (by simp)
      simp only [get_env_any, hk]
      have htail : ∀ k2 ∈ rest, env2 k2 = env k2 :=
        fun k2 hk2 => hagree k2 (List.mem_cons_of_mem _ hk2)
      cases env k with
      | none => exact ih env2 htail
      | some v =>
        by_cases hv : pyStrip v ≠ ""
        · simp [hv]
        · simp only [if_neg hv]
          exact ih env2 htail

/-- An environment fixture: two variables, the first blank. -/
def envAB : String → Option String := fun k =>
  if k = "A" then some "   " else if k = "B" then some " value " else none

/-- The same environment state on the queried keys, different elsewhere. -/
def envAB2 : String → Option String := fun k =>
  if k = "A" then some "   " else if k = "B" then some " value " else some "other"

/-- Witness for C8: the two environments agree on the candidate list, so
the resolver returns the same value for both. -/
theorem get_env_any_spec_witness :
    (∀ k ∈ ["A", "B"], envAB2 k = envAB k)
    ∧ get_env_any envAB2 ["A", "B"] "dflt" = get_env_any envAB ["A", "B"] "dflt" :=
  ⟨by decide, (get_env_any_spec envAB ["A", "B"] "dflt").2 envAB2 (by decide)⟩

/-! ### Claim C4: sanitized names are traversal-free -/

/-- The basename fold never leaves a separator in its accumulator. -/
theorem foldl_basename_no_slash (l : List Char) (acc : List Char)
    (h : '/' ∉ acc) :
    '/' ∉ l.foldl (fun acc c => if c = '/' then [] else acc ++ [c]) acc := by
  induction l generalizing acc with
  | nil => exact h
  | cons c t ih =>
    simp only [List.foldl]
    by_cases hc : c = '/'
    · rw [if_pos hc]
      exact ih [] (by simp)
    · rw [if_neg hc]
      refine ih _ ?_
      intro hmem
      rcases List.mem_append.mp hmem with hmem | hmem
      · exact h hmem
      · exact hc (List.mem_singleton.mp hmem).symm

/-- `os.path.basename` removes every path separator. -/
theorem pyBasename_no_slash (s : String) : '/' ∉ (pyBasename s).data := by
  unfold pyBasename
  exact foldl_basename_no_slash s.data [] (by simp)

/-- The head of `replaceDotDot l` is the head of `l` or an underscore. -/
theorem replaceDotDot_head (l : List Char) :
    (replaceDotDot l).head? = l.head? ∨ (replaceDotDot l).head? = some '_' := by
  match l with
  | [] => exact Or.inl rfl
  | [c] => exact Or.inl rfl
  | c1 :: c2 :: rest =>
    simp only [replaceDotDot]
    by_cases h : (c1 = '.' && c2 = '.') = true
    · rw [if_pos h]
      exact Or.inr rfl
    · rw [if_neg h]
      exact Or.inl rfl

/-- Prepending a character keeps a list double-dot free provided the
character and the current head are not both dots. -/
theorem hasDoubleDot_cons (c : Char) (l : List Char)
    (hl : hasDoubleDot l = false)
    (hcl : c ≠ '.' ∨ l.head? ≠ some '.') :
    hasDoubleDot (c :: l) = false := by
  cases l with
  | nil => rfl
  | cons d t =>
    simp only [hasDoubleDot] at hl ⊢
    rw [Bool.or_eq_false_iff]
    refine ⟨?_, hl⟩
    rw [Bool.and_eq_false_iff]
    rcases hcl with hc | hd
    · exact Or.inl (by simpa using hc)
    · refine Or.inr ?_
      have hd2 : d ≠ '.' := fun he => hd (by simp [he])
      simpa using hd2

/-- The replacement scan leaves no two consecutive dots behind. -/
theorem replaceDotDot_no_doubleDot (l : List Char) :
    hasDoubleDot (replaceDotDot l) = false := by
  induction l using replaceDotDot.induct with
  | case1 => rfl
  | case2 c => rfl
  | case3 c1 c2 rest h ih =>
    rw [replaceDotDot, if_pos h]
    exact hasDoubleDot_cons _ _ ih (Or.inl (by decide))
  | case4 c1 c2 rest h ih =>
    rw [replaceDotDot, if_neg h]
    refine hasDoubleDot_cons _ _ ih ?_
    by_cases hc1 : c1 = '.'
    · right
      have hc2 : c2 ≠ '.' := by
        intro hc2
        exact h (by simp [hc1, hc2])
      rcases replaceDotDot_head (c2 :: rest) with hh | hh
      · rw [hh]
        simpa using hc2
      · rw [hh]
        decide
    · exact Or.inl hc1

/-- Every character of the replaced list comes from the input or is the
underscore substituted for a dot pair. -/
theorem mem_replaceDotDot {c : Char} {l : List Char}
    (h : c ∈ replaceDotDot l) : c ∈ l ∨ c = '_' := by
  induction l using replaceDotDot.induct with
  | case1 => cases h
  | case2 d =>
    simp only [replaceDotDot] at h
    exact Or.inl h
  | case3 c1 c2 rest hcond ih =>
    rw [replaceDotDot, if_pos hcond] at h
    rcases List.mem_cons.mp h with h1 | h1
    · exact Or.inr h1
    · rcases ih h1 with h2 | h2
      · exact Or.inl (List.mem_cons_of_mem _ (List.mem_cons_of_mem _ h2))
      · exact Or.inr h2
  | case4 c1 c2 rest hcond ih =>
    rw [replaceDotDot, if_neg hcond] at h
    rcases List.mem_cons.mp h with h1 | h1
    · exact Or.inl (h1 ▸ List.mem_cons_self _ _)
    · rcases ih h1 with h2 | h2
      · exact Or.inl (List.mem_cons_of_mem _ h2)
      · exact Or.inr h2

/-- C4: for every input filename the sanitized name contains no `".."`
substring and no path separator, and every write of the Backup Writer
lands directly inside the timestamped backup subdirectory, under the
sanitized name of one of the uploaded files. -/
theorem sanitize_safe (name : String) :
    hasDoubleDot (sanitizeName name).data = false
    ∧ '/' ∉ (sanitizeName name).data
    ∧ ∀ (files : List UploadedFile) (base ts : String) (wr : WriteOp),
        wr ∈ (save_uploaded_files files base ts).2 →
        wr.dir = base ++ "/" ++ ts ∧ ∃ f ∈ files, wr.name = sanitizeName f.name := by
  refine ⟨replaceDotDot_no_doubleDot _, ?_, ?_⟩
  · intro hmem
    rcases mem_replaceDotDot hmem with h | h
    · exact pyBasename_no_slash name h
    · cases h
  · intro files base ts wr hwr
    simp only [save_uploaded_files] at hwr
    rcases List.mem_map.mp hwr with ⟨f, hf, rfl⟩
    exact ⟨rfl, f, hf, rfl⟩

/-- Witness for C4 at a traversal-laden filename. -/
theorem sanitize_safe_witness :
    (WriteOp.mk "b/t" "_secret_txt" [7] ∈
      (save_uploaded_files [⟨"..secret..txt", [7]⟩] "b" "t").2)
    ∧ hasDoubleDot (sanitizeName "..secret..txt").data = false
    ∧ (WriteOp.mk "b/t" "_secret_txt" [7]).dir = "b" ++ "/" ++ "t" :=
  ⟨by decide, (sanitize_safe "..secret..txt").1,
    ((sanitize_safe "..secret..txt").2.2 [⟨"..secret..txt", [7]⟩] "b" "t"
      (WriteOp.mk "b/t" "_secret_txt" [7]) (by decide)).1⟩

/-! ### Claims C1 and C7: the Signature Generator -/

/-- The keys surviving the value filter form a sublist of the original
keys. -/
theorem pyFilterParams_keys_sublist (params : List (String × Option String)) :
    ((pyFilterParams params).map Prod.fst).Sublist (params.map Prod.fst) := by
  induction params with
  | nil => simp [pyFilterParams]
  | cons kv t ih =>
    cases h2 : kv.2 with
    | none => simpa [pyFilterParams, List.filterMap_cons, h2] using ih.cons _
    | some v =>
      by_cases hv : v = ""
      · simpa [pyFilterParams, List.filterMap_cons, h2, hv] using ih.cons _
      · simpa [pyFilterParams, List.filterMap_cons, h2, hv] using ih.cons₂ kv.1

/-- In a list with pairwise distinct keys, a key determines its value. -/
theorem nodup_keys_value_eq {α : Type} {l : List (String × α)}
    (h : (l.map Prod.fst).Nodup) {k : String} {a b : α}
    (ha : (k, a) ∈ l) (hb : (k, b) ∈ l) : a = b := by
  induction l with
  | nil => cases ha
  | cons kv t ih =>
    simp only [List.map_cons, List.nodup_cons] at h
    rcases List.mem_cons.mp ha with ha1 | ha1 <;>
      rcases List.mem_cons.mp hb with hb1 | hb1
    · exact congrArg Prod.snd (ha1.trans hb1.symm)
    · exact absurd (List.mem_map.mpr ⟨(k, b), hb1, by rw [← ha1]⟩) h.1
    · exact absurd (List.mem_map.mpr ⟨(k, a), ha1, by rw [← hb1]⟩) h.1
    · exact ih h.2 ha1 hb1

/-- Membership determines `lookup` when the keys are pairwise distinct. -/
theorem lookup_eq_some_of_nodup {α : Type} {l : List (String × α)}
    (h : (l.map Prod.fst).Nodup) {k : String} {a : α}
    (ha : (k, a) ∈ l) : l.lookup k = some a := by
  induction l with
  | nil => cases ha
  | cons kv t ih =>
    simp only [List.map_cons, List.nodup_cons] at h
    rcases kv with ⟨k0, v0⟩
    rcases List.mem_cons.mp ha with h1 | h1
    · injection h1 with h1a h1b
      subst h1a
      subst h1b
      simp [List.lookup]
    · by_cases hk : k = k0
      · subst hk
        exact absurd (List.mem_map.mpr ⟨(k, a), h1, rfl⟩) h.1
      · have hb : (k == k0) = false := beq_false_of_ne hk
        simp only [List.lookup, hb]
        exact ih h.2 h1

/-- A key absent from the key list looks up to nothing. -/
theorem lookup_eq_none_of_not_mem {α : Type} {l : List (String × α)}
    {k : String} (h : k ∉ l.map Prod.fst) : l.lookup k = none := by
  induction l with
  | nil => rfl
  | cons kv t ih =>
    rcases kv with ⟨k0, v0⟩
    simp only [List.map_cons, List.mem_cons, not_or] at h
    have hb : (k == k0) = false := beq_false_of_ne h.1
    simp only [List.lookup, hb]
    exact ih h.2

/-- A successful lookup exhibits a member. -/
theorem mem_of_lookup_eq_some {α : Type} {l : List (String × α)}
    {k : String} {v : α} (h : l.lookup k = some v) : (k, v) ∈ l := by
  induction l with
  | nil => cases h
  | cons kv t ih =>
    rcases kv with ⟨k0, v0⟩
    by_cases hk : (k == k0) = true
    · simp only [List.lookup, hk] at h
      injection h with h
      subst h
      rw [eq_of_beq hk]
      exact List.mem_cons_self _ _
    · have hb : (k == k0) = false := by simpa using hk
      simp only [List.lookup, hb] at h
      exact List.mem_cons_of_mem _ (ih h)

/-- `lookup` is invariant under permutation when keys are distinct. -/
theorem lookup_perm_eq {α : Type} {l₁ l₂ : List (String × α)}
    (hp : l₁.Perm l₂) (hnd : (l₁.map Prod.fst).Nodup) (k : String) :
    l₁.lookup k = l₂.lookup k := by
  cases hl : l₁.lookup k with
  | none =>
    have hk : k ∉ l₁.map Prod.fst := by
      intro hmem
      rcases List.mem_map.mp hmem with ⟨kv, hkv, hfst⟩
      rcases kv with ⟨k0, v0⟩
      cases hfst
      rw [lookup_eq_some_of_nodup hnd hkv] at hl
      cases hl
    have hk2 : k ∉ l₂.map Prod.fst := fun hmem =>
      hk (((hp.map Prod.fst).mem_iff).mpr hmem)
    exact (lookup_eq_none_of_not_mem hk2).symm
  | some v =>
    have hmem : (k, v) ∈ l₂ := hp.mem_iff.mp (mem_of_lookup_eq_some hl)
    have hnd2 : (l₂.map Prod.fst).Nodup := ((hp.map Prod.fst).nodup_iff).mp hnd
    exact (lookup_eq_some_of_nodup hnd2 hmem).symm

/-- The filtering comprehension equals filtering then unwrapping values. -/
theorem pyFilterParams_eq_map_filter (params : List (String × Option String)) :
    pyFilterParams params =
      (params.filter (fun kv => !(kv.2 == none) && !(kv.2 == some ""))).map
        (fun kv => (kv.1, kv.2.getD "")) := by
  induction params with
  | nil => rfl
  | cons kv t ih =>
    cases h2 : kv.2 with
    | none =>
      simpa [pyFilterParams, List.filterMap_cons, List.filter_cons, h2] using ih
    | some v =>
      by_cases hv : v = ""
      · simpa [pyFilterParams, List.filterMap_cons, List.filter_cons, h2, hv]
          using ih
      · simpa [pyFilterParams, List.filterMap_cons, List.filter_cons, h2, hv]
          using ih

/-- C1: for every parameter mapping and secret, the Signature Generator
returns exactly the lowercase hex SHA-1 digest of the UTF-8 encoding of
the base string the specification describes (drop empty or absent
entries, sort the remaining keys, join `key=value` pairs with `&`,
append the secret directly); entries with empty or absent values never
contribute a key to the base string. -/
theorem cloudinary_signature_matches_spec
    (params : List (String × Option String)) (secret : String)
    (hnd : (params.map Prod.fst).Nodup) :
    cloudinarySignature params secret =
      sha1Hex (utf8Bytes (specSignatureBase params secret))
    ∧ ∀ k v, (k, v) ∈ params → (v = none ∨ v = some "") →
      k ∉ (pyFilterParams params).map Prod.fst := by
  constructor
  · have hFnd : ((pyFilterParams params).map Prod.fst).Nodup :=
      hnd.sublist (pyFilterParams_keys_sublist params)
    have hkeys :
        ((pyFilterParams params).insertionSort
            (fun a b : String × String => a.1 ≤ b.1)).map Prod.fst =
          ((pyFilterParams params).map Prod.fst).insertionSort (· ≤ ·) :=
      List.map_insertionSort (fun a b : String × String => a.1 ≤ b.1)
        (· ≤ ·) Prod.fst (pyFilterParams params) (fun a _ b _ => Iff.rfl)
    have hlook : ∀ kv ∈ (pyFilterParams params).insertionSort
        (fun a b : String × String => a.1 ≤ b.1),
        (pyFilterParams params).lookup kv.1 = some kv.2 := by
      intro kv hkv
      exact lookup_eq_some_of_nodup hFnd ((List.mem_insertionSort _).mp hkv)
    have hsource : signatureParts params =
        ((pyFilterParams params).insertionSort
            (fun a b : String × String => a.1 ≤ b.1)).map
          (fun kv => kv.1 ++ "=" ++ kv.2) := by
      simp only [signatureParts]
      rw [← hkeys, List.map_map]
      refine List.map_congr_left ?_
      intro kv hkv
      simp [hlook kv hkv]
    have hbridge :
        ((params.filter
              (fun kv => !(kv.2 == none) && !(kv.2 == some ""))).insertionSort
            (fun a b : String × Option String => a.1 ≤ b.1)).map
          (fun kv => (kv.1, kv.2.getD "")) =
          (pyFilterParams params).insertionSort
            (fun a b : String × String => a.1 ≤ b.1) := by
      rw [List.map_insertionSort (fun a b : String × Option String => a.1 ≤ b.1)
        (fun a b : String × String => a.1 ≤ b.1)
        (fun kv => (kv.1, kv.2.getD ""))
        (params.filter (fun kv => !(kv.2 == none) && !(kv.2 == some "")))
        (fun a _ b _ => Iff.rfl)]
      rw [← pyFilterParams_eq_map_filter]
    have hspec : specSignatureBase params secret =
        String.intercalate "&"
          (((pyFilterParams params).insertionSort
              (fun a b : String × String => a.1 ≤ b.1)).map
            (fun kv => kv.1 ++ "=" ++ kv.2)) ++ secret := by
      simp only [specSignatureBase]
      rw [← hbridge, List.map_map]
      rfl
    simp only [cloudinarySignature, hsource, hspec]
  · intro k v hmem hempty hk
    rcases List.mem_map.mp hk with ⟨kv2, hkv2, hfst⟩
    rcases List.mem_filterMap.mp hkv2 with ⟨orig, horig, heq⟩
    rcases orig with ⟨k2, v2⟩
    cases hv2 : v2 with
    | none => rw [hv2] at heq; cases heq
    | some v3 =>
      rw [hv2] at heq
      simp only at heq
      by_cases hv3 : v3 = ""
      · rw [if_pos hv3] at heq; cases heq
      · rw [if_neg hv3] at heq
        injection heq with heq2
        subst heq2
        simp only at hfst
        subst hfst
        rw [hv2] at horig
        have := nodup_keys_value_eq hnd hmem horig
        rcases hempty with he | he
        · rw [he] at this; cases this
        · rw [he] at this
          injection this with h3
          exact hv3 h3.symm

/-- A concrete parameter mapping with one empty and one absent value. -/
def paramsFixture : List (String × Option String) :=
  [("timestamp", some "1735725600"), ("folder", some "shots"),
   ("empty", some ""), ("absent", none)]

/-- Witness for C1 at a concrete mapping: the key list is distinct, the
refinement equation holds, and the empty-valued key is dropped. -/
theorem cloudinary_signature_matches_spec_witness :
    (paramsFixture.map Prod.fst).Nodup
    ∧ cloudinarySignature paramsFixture "sec" =
        sha1Hex (utf8Bytes (specSignatureBase paramsFixture "sec"))
    ∧ "empty" ∉ (pyFilterParams paramsFixture).map Prod.fst :=
  ⟨by decide,
    (cloudinary_signature_matches_spec paramsFixture "sec" (by decide)).1,
    (cloudinary_signature_matches_spec paramsFixture "sec" (by decide)).2
      "empty" (some "") (by decide) (Or.inr rfl)⟩

/-- C7: the Signature Generator is deterministic, and for parameter
mappings with non-empty values its output is invariant under permuting
the insertion order of the entries. -/
theorem cloudinary_signature_det_perm :
    (∀ (params : List (String × Option String)) (secret : String),
      cloudinarySignature params secret = cloudinarySignature params secret)
    ∧ ∀ (p1 p2 : List (String × Option String)) (secret : String),
      (∀ kv ∈ p1, kv.2 ≠ none ∧ kv.2 ≠ some "") →
      (p1.map Prod.fst).Nodup → p1.Perm p2 →
      cloudinarySignature p1 secret = cloudinarySignature p2 secret := by
  refine ⟨fun _ _ => rfl, ?_⟩
  intro p1 p2 secret _ hnd hp
  have hFperm : (pyFilterParams p1).Perm (pyFilterParams p2) := hp.filterMap _
  have hF1nd : ((pyFilterParams p1).map Prod.fst).Nodup :=
    hnd.sublist (pyFilterParams_keys_sublist p1)
  have hkeys : ((pyFilterParams p1).map Prod.fst).Perm
      ((pyFilterParams p2).map Prod.fst) := hFperm.map _
  have hsortEq :
      List.insertionSort (· ≤ ·) ((pyFilterParams p1).map Prod.fst) =
        List.insertionSort (· ≤ ·) ((pyFilterParams p2).map Prod.fst) :=
    List.eq_of_perm_of_sorted
      (((List.perm_insertionSort _ _).trans hkeys).trans
        (List.perm_insertionSort _ _).symm)
      (List.sorted_insertionSort _ _) (List.sorted_insertionSort _ _)
  have hparts : signatureParts p1 = signatureParts p2 := by
    simp only [signatureParts]
    rw [hsortEq]
    refine List.map_congr_left ?_
    intro k _
    rw [lookup_perm_eq hFperm hF1nd k]
  simp only [cloudinarySignature, hparts]

/-- The fixture mapping with its first two entries swapped. -/
def paramsFixtureSwap : List (String × Option String) :=
  [("folder", some "shots"), ("timestamp", some "1735725600")]

/-- The fixture mapping restricted to its non-empty entries, in the
original insertion order. -/
def paramsFixtureOrig : List (String × Option String) :=
  [("timestamp", some "1735725600"), ("folder", some "shots")]

/-- Witness for C7: a two-entry mapping with non-empty values, distinct
keys, and a transposed copy, on which the signatures agree. -/
theorem cloudinary_signature_det_perm_witness :
    (paramsFixtureOrig.map Prod.fst).Nodup
    ∧ cloudinarySignature paramsFixtureOrig "sec" =
        cloudinarySignature paramsFixtureSwap "sec" :=
  ⟨by decide,
    cloudinary_signature_det_perm.2 paramsFixtureOrig paramsFixtureSwap "sec"
      (by decide) (by decide) (List.Perm.swap _ _ _)⟩

/-! ### Reading backup writes back (for the Sending step) -/

/-- Unfolding `readFile` on a freshly prepended (earlier) write: later
writes shadow it. -/
theorem readFile_cons (a : WriteOp) (ws : List WriteOp) (p : String × String) :
    readFile (a :: ws) p =
      match readFile ws p with
      | some b => some b
      | none =>
        if a.dir == p.1 && a.name == p.2 then some a.bytes else none := by
  unfold readFile
  rw [List.reverse_cons, List.find?_append]
  cases h : ws.reverse.find? (fun wr => wr.dir == p.1 && wr.name == p.2) with
  | none =>
    simp only [h, Option.none_orElse, List.find?]
    cases hc : a.dir == p.1 && a.name == p.2 <;> simp [hc]
  | some wr => simp [h]

/-- `readFile` misses exactly when no write matches the path. -/
theorem readFile_eq_none_iff (ws : List WriteOp) (p : String × String) :
    readFile ws p = none ↔
      ∀ wr ∈ ws, ¬(wr.dir = p.1 ∧ wr.name = p.2) := by
  unfold readFile
  rw [Option.map_eq_none']
  rw [List.find?_eq_none]
  constructor
  · intro h wr hwr hmatch
    exact absurd (by simp [hmatch.1, hmatch.2])
      (h wr (List.mem_reverse.mpr hwr))
  · intro h wr hwr hbeq
    rcases Bool.and_eq_true .. |>.mp hbeq with ⟨h1, h2⟩
    exact h wr (List.mem_reverse.mp hwr) ⟨eq_of_beq h1, eq_of_beq h2⟩

/-- A recorded write is always readable (some later write may shadow
its bytes, but the read succeeds). -/
theorem readFile_isSome_of_mem {ws : List WriteOp} {wr : WriteOp}
    (h : wr ∈ ws) : (readFile ws (wr.dir, wr.name)).isSome := by
  cases hr : readFile ws (wr.dir, wr.name) with
  | some b => rfl
  | none =>
    exact absurd ((readFile_eq_none_iff ws _).mp hr wr h) (by simp)

/-- With pairwise distinct sanitized names, reading every saved path
back yields exactly the original bytes of the corresponding file, in
input order. -/
theorem attachments_of_distinct_names (dir : String) :
    ∀ files : List UploadedFile,
    (files.map (fun f => sanitizeName f.name)).Nodup →
    (files.map (fun f => WriteOp.mk dir (sanitizeName f.name) f.bytes)).map
        (fun wr => (wr.name,
          (readFile
            (files.map (fun f => WriteOp.mk dir (sanitizeName f.name) f.bytes))
            (wr.dir, wr.name)).getD []))
      = files.map (fun f => (sanitizeName f.name, f.bytes)) := by
  intro files
  induction files with
  | nil => intro _; rfl
  | cons f fs ih =>
    intro hnd
    simp only [List.map_cons, List.nodup_cons] at hnd ⊢
    rw [List.cons_eq_cons]
    constructor
    · rw [readFile_cons]
      have hnone : readFile
          (fs.map (fun f => WriteOp.mk dir (sanitizeName f.name) f.bytes))
          (dir, sanitizeName f.name) = none := by
        rw [readFile_eq_none_iff]
        intro wr hwr hmatch
        rcases List.mem_map.mp hwr with ⟨g, hg, rfl⟩
        exact hnd.1 (List.mem_map.mpr ⟨g, hg, hmatch.2⟩)
      rw [hnone]
      simp
    · have hshadow : ∀ wr ∈ fs.map
          (fun f => WriteOp.mk dir (sanitizeName f.name) f.bytes),
          readFile (WriteOp.mk dir (sanitizeName f.name) f.bytes ::
            fs.map (fun f => WriteOp.mk dir (sanitizeName f.name) f.bytes))
            (wr.dir, wr.name) =
          readFile (fs.map (fun f => WriteOp.mk dir (sanitizeName f.name) f.bytes))
            (wr.dir, wr.name) := by
        intro wr hwr
        rw [readFile_cons]
        cases hr : readFile
            (fs.map (fun f => WriteOp.mk dir (sanitizeName f.name) f.bytes))
            (wr.dir, wr.name) with
        | some b => rfl
        | none =>
          exact absurd (hr ▸ readFile_isSome_of_mem hwr) (by simp)
      rw [List.map_congr_left (fun wr hwr => by rw [hshadow wr hwr])]
      exact ih hnd.2

/-! ### Concrete worlds and submissions for witnesses -/

/-- An environment with only the Mailgun variables set. -/
def envMailgun : String → Option String := fun k =>
  if k = "MAILGUN_API_KEY" then some "mg-key"
  else if k = "MAILGUN_DOMAIN" then some "mg.example.com"
  else if k = "MAILGUN_SENDER" then some "from@example.com"
  else none

/-- An environment with Mailgun and Cloudinary variables set. -/
def envFull : String → Option String := fun k =>
  if k = "CLOUDINARY_CLOUD_NAME" then some "democloud"
  else if k = "CLOUDINARY_API_KEY" then some "cld-key"
  else if k = "CLOUDINARY_API_SECRET" then some "cld-secret"
  else envMailgun k

/-- A Mailgun oracle that accepts every request. -/
def postOk : MailgunRequest → MailgunResp :=
  fun _ => { status_code := 200, text := "Queued" }

/-- A world with Mailgun configured, no host responses, sends accepted. -/
def worldBasic : World :=
  { env := envMailgun, timestamp := "20260101_120000", cloudTime := 1767268800,
    cloudinary := fun _ => .exn, imgbb := fun _ => .exn, mailgun := postOk }

/-- A world with Cloudinary configured in which the upload of `a.png`
succeeds with one URL and every other upload raises. -/
def worldCloudHalf : World :=
  { env := envFull, timestamp := "20260101_120000", cloudTime := 1767268800,
    cloudinary := fun p =>
      if p.2 = "a.png" then
        .ok { status_code := 200, json_secure_url := .ok (some "https://cdn.example/a.png") }
      else .exn,
    imgbb := fun _ => .exn, mailgun := postOk }

/-- A submission with one file and a whitespace-only recipient. -/
def subBlankRecipient : Submission :=
  { uploaded_files := [⟨"cat.png", [1, 2, 3]⟩], recipient_email := " ",
    from_display := "", subject := "subj", body := "hello",
    backup_base := "backups", enable_remote_hosting := false,
    preferred_host := "none", cloudinary_folder_input := "" }

/-- A submission with two files and remote hosting via Cloudinary. -/
def subTwoFiles : Submission :=
  { uploaded_files := [⟨"a.png", [1]⟩, ⟨"b.png", [2]⟩],
    recipient_email := "rcpt@example.com", from_display := "",
    subject := "subj", body := "hello", backup_base := "backups",
    enable_remote_hosting := true, preferred_host := "cloudinary",
    cloudinary_folder_input := "" }

/-- A submission with two files whose sanitized names collide. -/
def subDupNames : Submission :=
  { uploaded_files := [⟨"a.png", [1]⟩, ⟨"a.png", [2]⟩],
    recipient_email := "rcpt@example.com", from_display := "",
    subject := "subj", body := "hello", backup_base := "backups",
    enable_remote_hosting := false, preferred_host := "none",
    cloudinary_folder_input := "" }


/-! ### Orchestrator theorems -/

/-- When all three validation checks pass, `mainClicked` runs the send
phase. -/
theorem mainClicked_pass (w : World) (s : Submission)
    (h1 : s.uploaded_files ≠ []) (h2 : s.recipient_email ≠ "")
    (h3 : mg_ready (resolveCfg w.env) = true) :
    mainClicked w s = mainSendPhase w s := by
  unfold mainClicked
  rw [if_neg h1, if_neg h2, if_neg (by simp [h3])]

/-- C3 (corrected): a submission with no uploaded files, an empty
recipient, or unready Mailgun credentials fails validation with one of
the three validation messages and performs no disk write, no upload
attempt and no mail send. -/
theorem validation_blocks_everything (w : World) (s : Submission)
    (h : s.uploaded_files = [] ∨ s.recipient_email = "" ∨
      mg_ready (resolveCfg w.env) = false) :
    ∃ msg, mainClicked w s = validationFailure msg
      ∧ (msg = msgNoFiles ∨ msg = msgNoRecipient ∨ msg = msgNoMailgun) := by
  unfold mainClicked
  by_cases h1 : s.uploaded_files = []
  · rw [if_pos h1]
    exact ⟨msgNoFiles, rfl, Or.inl rfl⟩
  · rw [if_neg h1]
    by_cases h2 : s.recipient_email = ""
    · rw [if_pos h2]
      exact ⟨msgNoRecipient, rfl, Or.inr (Or.inl rfl)⟩
    · rw [if_neg h2]
      have h3 : mg_ready (resolveCfg w.env) = false := by tauto
      rw [if_pos h3]
      exact ⟨msgNoMailgun, rfl, Or.inr (Or.inr rfl)⟩

/-- Witness for amended C3: with no uploaded files, the submission fails
with a validation message and the outcome records no activity. -/
theorem validation_blocks_everything_witness :
    ({ subBlankRecipient with uploaded_files := [] } : Submission).uploaded_files = []
    ∧ ∃ msg, mainClicked worldBasic { subBlankRecipient with uploaded_files := [] } =
        validationFailure msg
      ∧ (msg = msgNoFiles ∨ msg = msgNoRecipient ∨ msg = msgNoMailgun) :=
  ⟨rfl, validation_blocks_everything worldBasic
    { subBlankRecipient with uploaded_files := [] } (Or.inl rfl)⟩

/-- Counterexample to C3 as stated: a whitespace-only recipient is not
caught by `if not recipient_email:` (only the empty string is falsy), so
the submission proceeds to disk writes and a mail send and even
succeeds, instead of failing validation. -/
theorem blank_recipient_not_validated :
    subBlankRecipient.recipient_email = " "
    ∧ (mainClicked worldBasic subBlankRecipient).writes ≠ []
    ∧ (mainClicked worldBasic subBlankRecipient).mailSent ≠ none
    ∧ (mainClicked worldBasic subBlankRecipient).state = .succeeded := by
  refine ⟨rfl, ?_, ?_, ?_⟩ <;> decide

/-- C10: in the send phase the `from` field of the posted request is the
resolved `MAILGUN_SENDER` value when the sender form field is empty, and
the form field itself otherwise (`from_display or MAILGUN_SENDER`). -/
theorem sender_fallback (w : World) (s : Submission)
    (h1 : s.uploaded_files ≠ []) (h2 : s.recipient_email ≠ "")
    (h3 : mg_ready (resolveCfg w.env) = true) :
    ∃ req, (mainClicked w s).mailSent = some req
      ∧ req.fromAddr =
        (if s.from_display = "" then (resolveCfg w.env).mailgun_sender
         else s.from_display) := by
  rw [mainClicked_pass w s h1 h2 h3]
  exact ⟨_, rfl, rfl⟩

/-- Witness for C10: with an empty sender field the posted `from` is the
resolved environment sender. -/
theorem sender_fallback_witness :
    mg_ready (resolveCfg worldBasic.env) = true
    ∧ ∃ req, (mainClicked worldBasic subDupNames).mailSent = some req
      ∧ req.fromAddr =
        (if subDupNames.from_display = "" then
          (resolveCfg worldBasic.env).mailgun_sender
         else subDupNames.from_display) :=
  ⟨by decide, sender_fallback worldBasic subDupNames (by decide) (by decide)
    (by decide)⟩

/-- C9 (corrected): in every submission that reaches the Sending step,
the Mail Client is invoked exactly once (the outcome records exactly one
posted request) with one attachment per uploaded file in input order;
when the sanitized filenames are pairwise distinct each attachment
carries the original uploaded bytes, and when the post is accepted the
terminal state is Succeeded. -/
theorem sending_attachments (w : World) (s : Submission)
    (h1 : s.uploaded_files ≠ []) (h2 : s.recipient_email ≠ "")
    (h3 : mg_ready (resolveCfg w.env) = true)
    (hnd : (s.uploaded_files.map (fun f => sanitizeName f.name)).Nodup) :
    ∃ req, (mainClicked w s).mailSent = some req
      ∧ req.attachments =
        s.uploaded_files.map (fun f => (sanitizeName f.name, f.bytes))
      ∧ ((w.mailgun req).status_code < 400 →
        (mainClicked w s).state = .succeeded) := by
  rw [mainClicked_pass w s h1 h2 h3]
  refine ⟨_, rfl, ?_, ?_⟩
  · show ((save_uploaded_files s.uploaded_files s.backup_base w.timestamp).2.map
        (fun wr => (wr.dir, wr.name))).map
        (fun p => (p.2,
          (readFile (save_uploaded_files s.uploaded_files s.backup_base
            w.timestamp).2 p).getD [])) =
      s.uploaded_files.map (fun f => (sanitizeName f.name, f.bytes))
    have h := attachments_of_distinct_names (s.backup_base ++ "/" ++ w.timestamp)
      s.uploaded_files hnd
    rw [List.map_map] at h
    simp only [save_uploaded_files, List.map_map]
    exact h
  · intro hok
    show (mainSendPhase w s).state = .succeeded
    simp only [mainSendPhase, send_via_mailgun]
    rw [if_neg (by exact Nat.not_le.mpr hok)]

/-- A single-file submission matching end-to-end scenario 2. -/
def subCat : Submission :=
  { uploaded_files := [⟨"cat.png", [0, 1, 2, 3, 4, 5, 6, 7, 8, 9]⟩],
    recipient_email := "a@b.com", from_display := "", subject := "subj",
    body := "hello", backup_base := "backups",
    enable_remote_hosting := false, preferred_host := "none",
    cloudinary_folder_input := "" }

/-- Witness for amended C9: a single `cat.png` upload is mailed once
with one attachment named `cat.png` carrying the original bytes. -/
theorem sending_attachments_witness :
    (subCat.uploaded_files.map (fun f => sanitizeName f.name)).Nodup
    ∧ ∃ req, (mainClicked worldBasic subCat).mailSent = some req
      ∧ req.attachments =
        subCat.uploaded_files.map (fun f => (sanitizeName f.name, f.bytes))
      ∧ ((worldBasic.mailgun req).status_code < 400 →
        (mainClicked worldBasic subCat).state = .succeeded) :=
  ⟨by decide, sending_attachments worldBasic subCat (by decide) (by decide)
    (by decide) (by decide)⟩

/-- Counterexample to C9 as stated: two uploads whose sanitized names
collide are backed up to the same path, so the first attachment carries
the bytes of the second file, not its own original bytes. -/
theorem duplicate_names_overwrite :
    subDupNames.uploaded_files.map (fun f => f.bytes) = [[1], [2]]
    ∧ ((mainClicked worldBasic subDupNames).mailSent.map
        (fun r => r.attachments)) = some [("a.png", [2]), ("a.png", [2])]
    ∧ ([("a.png", [2]), ("a.png", [2])] : List (String × List Nat)) ≠
        subDupNames.uploaded_files.map
          (fun f => (sanitizeName f.name, f.bytes)) := by
  refine ⟨rfl, ?_, ?_⟩ <;> decide

/-- The hosting warning appears exactly when the URL list is empty. -/
theorem warn_iff_empty (b : Bool) (urls : List String) (hb : b = true) :
    ((if b = true ∧ urls = [] then [hostingWarning] else []) = [hostingWarning]
      ↔ urls = []) := by
  subst hb
  by_cases hu : urls = []
  · simp [hu]
  · simp [hu]

/-- C5 (corrected): when remote hosting is enabled and the mail post is
accepted, the submission reaches Succeeded and the hosting warning is
shown exactly when zero URLs were collected — a partial mismatch (some
but not all uploads succeeded) shows no warning. -/
theorem hosting_warning_iff (w : World) (s : Submission)
    (h1 : s.uploaded_files ≠ []) (h2 : s.recipient_email ≠ "")
    (h3 : mg_ready (resolveCfg w.env) = true)
    (he : s.enable_remote_hosting = true)
    (hok : ∀ r, (w.mailgun r).status_code < 400) :
    (mainClicked w s).state = .succeeded
    ∧ ((mainClicked w s).warnings = [hostingWarning] ↔
      (mainClicked w s).remote_urls = []) := by
  rw [mainClicked_pass w s h1 h2 h3]
  simp only [mainSendPhase, send_via_mailgun]
  rw [if_neg (Nat.not_le.mpr (hok _))]
  exact ⟨rfl, warn_iff_empty s.enable_remote_hosting _ he⟩

/-- Counterexample to C5 as stated: two uploads attempted, exactly one
URL obtained, mail accepted — the submission reaches Succeeded but no
warning at all is displayed, because the source only warns when the URL
list is empty (`if enable_remote_hosting and not remote_urls`). -/
theorem partial_upload_shows_no_warning :
    (mainClicked worldCloudHalf subTwoFiles).uploadAttempts.length = 2
    ∧ (mainClicked worldCloudHalf subTwoFiles).remote_urls =
        ["https://cdn.example/a.png"]
    ∧ (mainClicked worldCloudHalf subTwoFiles).state = .succeeded
    ∧ (mainClicked worldCloudHalf subTwoFiles).warnings = [] := by
  refine ⟨?_, ?_, ?_, ?_⟩ <;> decide

/-- A world like `worldCloudHalf` in which every upload raises. -/
def worldCloudNone : World :=
  { env := envFull, timestamp := "20260101_120000", cloudTime := 1767268800,
    cloudinary := fun _ => .exn, imgbb := fun _ => .exn, mailgun := postOk }

/-- Witness for amended C5: hosting enabled, zero URLs obtained — the
submission succeeds and the warning is displayed. -/
theorem hosting_warning_iff_witness :
    subTwoFiles.enable_remote_hosting = true
    ∧ (mainClicked worldCloudNone subTwoFiles).state = .succeeded
    ∧ ((mainClicked worldCloudNone subTwoFiles).warnings = [hostingWarning] ↔
      (mainClicked worldCloudNone subTwoFiles).remote_urls = []) :=
  ⟨rfl,
    (hosting_warning_iff worldCloudNone subTwoFiles (by decide) (by decide)
      (by decide) rfl (fun _ => of_decide_eq_true rfl)).1,
    (hosting_warning_iff worldCloudNone subTwoFiles (by decide) (by decide)
      (by decide) rfl (fun _ => of_decide_eq_true rfl)).2⟩

/-- The upload loop over a pure Cloudinary configuration: every path is
attempted exactly once, and the URLs are the truthy upload results in
input order with failures dropped. -/
theorem uploadAll_cloudinary (w : World) (cfg : ResolvedCfg) (s : Submission)
    (hp : s.preferred_host = "cloudinary") (hcr : cloudinary_ready cfg = true) :
    ∀ paths : List (String × String),
      uploadAll w cfg s paths =
        (paths, paths.filterMap
          (fun p => (cloudAttempt w cfg s p).filter (fun u => u != ""))) := by
  intro paths
  induction paths with
  | nil => rfl
  | cons p rest ih =>
    have hcond : s.preferred_host = "cloudinary" ∧ cloudinary_ready cfg = true :=
      ⟨hp, hcr⟩
    simp only [uploadAll]
    rw [if_pos hcond, ih]
    cases hc : cloudAttempt w cfg s p with
    | none => simp [List.filterMap_cons, hc, Option.filter]
    | some u =>
      by_cases hu : u = ""
      · simp [List.filterMap_cons, hc, hu, Option.filter]
      · simp [List.filterMap_cons, hc, hu, Option.filter]

/-- C6: the Image Host Client returns `none` uniformly for a raised
request, a non-200 status, or a malformed JSON body, never raising (it
is a total function); and when hosting is enabled with Cloudinary
preferred and ready, the Uploading step attempts exactly one upload per
file, collects the truthy URLs in input order while silently dropping
failures, and still posts the mail (no submission failure from
uploads). -/
theorem upload_failures_nonfatal (w : World) (s : Submission)
    (h1 : s.uploaded_files ≠ []) (h2 : s.recipient_email ≠ "")
    (h3 : mg_ready (resolveCfg w.env) = true)
    (he : s.enable_remote_hosting = true)
    (hp : s.preferred_host = "cloudinary")
    (hcr : cloudinary_ready (resolveCfg w.env) = true) :
    (∀ (ts : Nat) (cn ak sec : String) (fol : Option String),
      upload_to_cloudinary .exn ts cn ak sec fol = none
      ∧ (∀ resp : CloudResp, resp.status_code ≠ 200 →
          upload_to_cloudinary (.ok resp) ts cn ak sec fol = none)
      ∧ ∀ st : Nat, upload_to_cloudinary (.ok ⟨st, .exn⟩) ts cn ak sec fol = none)
    ∧ (mainClicked w s).uploadAttempts =
        s.uploaded_files.map
          (fun f => (s.backup_base ++ "/" ++ w.timestamp, sanitizeName f.name))
    ∧ (mainClicked w s).remote_urls =
        (s.uploaded_files.map
          (fun f => (s.backup_base ++ "/" ++ w.timestamp,
            sanitizeName f.name))).filterMap
          (fun p => (cloudAttempt w (resolveCfg w.env) s p).filter
            (fun u => u != ""))
    ∧ (mainClicked w s).mailSent ≠ none := by
  have hclient : ∀ (ts : Nat) (cn ak sec : String) (fol : Option String),
      upload_to_cloudinary .exn ts cn ak sec fol = none
      ∧ (∀ resp : CloudResp, resp.status_code ≠ 200 →
          upload_to_cloudinary (.ok resp) ts cn ak sec fol = none)
      ∧ ∀ st : Nat, upload_to_cloudinary (.ok ⟨st, .exn⟩) ts cn ak sec fol = none := by
    intro ts cn ak sec fol
    refine ⟨rfl, ?_, ?_⟩
    · intro resp hne
      simp only [upload_to_cloudinary]
      rw [if_neg hne]
    · intro st
      by_cases hst : st = 200
      · simp [upload_to_cloudinary, hst]
      · simp [upload_to_cloudinary, hst]
  have hsaved : (save_uploaded_files s.uploaded_files s.backup_base
      w.timestamp).2.map (fun wr => (wr.dir, wr.name)) =
      s.uploaded_files.map
        (fun f => (s.backup_base ++ "/" ++ w.timestamp, sanitizeName f.name)) := by
    simp [save_uploaded_files, List.map_map]
  have hne : (save_uploaded_files s.uploaded_files s.backup_base
      w.timestamp).2.map (fun wr => (wr.dir, wr.name)) ≠ [] := by
    rw [hsaved]
    simpa using h1
  rw [mainClicked_pass w s h1 h2 h3]
  refine ⟨hclient, ?_, ?_, ?_⟩
  · show (if s.enable_remote_hosting = true ∧
        (save_uploaded_files s.uploaded_files s.backup_base w.timestamp).2.map
          (fun wr => (wr.dir, wr.name)) ≠ [] then
        uploadAll w (resolveCfg w.env) s
          ((save_uploaded_files s.uploaded_files s.backup_base w.timestamp).2.map
            (fun wr => (wr.dir, wr.name)))
      else ([], [])).1 =
      s.uploaded_files.map
        (fun f => (s.backup_base ++ "/" ++ w.timestamp, sanitizeName f.name))
    rw [if_pos ⟨he, hne⟩, uploadAll_cloudinary w (resolveCfg w.env) s hp hcr]
    exact hsaved
  · show (if s.enable_remote_hosting = true ∧
        (save_uploaded_files s.uploaded_files s.backup_base w.timestamp).2.map
          (fun wr => (wr.dir, wr.name)) ≠ [] then
        uploadAll w (resolveCfg w.env) s
          ((save_uploaded_files s.uploaded_files s.backup_base w.timestamp).2.map
            (fun wr => (wr.dir, wr.name)))
      else ([], [])).2 =
      (s.uploaded_files.map
        (fun f => (s.backup_base ++ "/" ++ w.timestamp, sanitizeName f.name))).filterMap
        (fun p => (cloudAttempt w (resolveCfg w.env) s p).filter (fun u => u != ""))
    rw [if_pos ⟨he, hne⟩, uploadAll_cloudinary w (resolveCfg w.env) s hp hcr,
      hsaved]
  · show some _ ≠ none
    simp

/-- Witness for C6: a concrete half-failing Cloudinary world satisfies
every hypothesis and the orchestrator still posts the mail. -/
theorem upload_failures_nonfatal_witness :
    cloudinary_ready (resolveCfg worldCloudHalf.env) = true
    ∧ (mainClicked worldCloudHalf subTwoFiles).mailSent ≠ none :=
  ⟨by decide,
    (upload_failures_nonfatal worldCloudHalf subTwoFiles (by decide) (by decide)
      (by decide) rfl rfl (by decide)).2.2.2⟩
